import Mathlib

/-!
# xpfix: an interposition shim for `socket`, `sendto`, `send` and `close`

Shallow embedding of `src/xpfix.c`.

* The process-wide array `static int socks[MAX_SOCK]` is a value of type
  `Table`, threaded explicitly through every operation.
* The genuine functions obtained by `dlsym(RTLD_NEXT, ...)` are function
  parameters (`real_socket`, `real_sendto`, `real_close`) with the types the
  source gives to the local function pointers.
* Every operation returns an `Outcome`: the C return value, the table after
  the call and the list of effects performed, in program order.  Effects are
  the calls of genuine functions, the `printf` diagnostics, the accesses to
  `socks[...]` and the reads of the caller's buffer.
* C `int` and `ssize_t` values are `Int`, `size_t` and `socklen_t` values are
  `Nat`.  The source performs no arithmetic on them, only comparisons.
-/

namespace Xpfix

/-- Capacity of the table: `#define MAX_SOCK 1024`. -/
def MAX_SOCK : Nat := 1024

/-- Address family constant of `<sys/socket.h>` on Linux. -/
def AF_NETLINK : Int := 16

/-- The array `static int socks[MAX_SOCK]`. -/
abbrev Table := Fin MAX_SOCK → Int

/-- Memory behind a `const void *buf`: the bytes starting at the pointer. -/
abbrev Buf := List Nat

/-- What a `const struct sockaddr *` points to; the null pointer is `none`. -/
abbrev Sockaddr := List Nat

/-- Effects performed by the intercepted functions. -/
inductive Event where
  | real_socket (domain type protocol : Int)
  | real_sendto (fd : Int) (buf : Buf) (len : Nat) (flags : Int)
      (dest_addr : Option Sockaddr) (addrlen : Nat)
  | real_send (fd : Int) (buf : Buf) (len : Nat) (flags : Int)
  | real_close (fd : Int)
  | printf (text : String)
  | socks_read (index : Int)
  | socks_write (index : Int) (value : Int)
  | buf_read (offset : Nat) (width : Nat)
  deriving DecidableEq

/-- Result of one intercepted call. -/
structure Outcome where
  ret : Int
  socks : Table
  trace : List Event

/-- Byte of a buffer at an offset. -/
def byteAt (buf : Buf) (off : Nat) : Nat := buf.getD off 0 % 256

/-- Offset of `nlmsg_type` in `struct nlmsghdr`, whose fields are
`__u32 nlmsg_len`, `__u16 nlmsg_type`, `__u16 nlmsg_flags`, `__u32 nlmsg_seq`
and `__u32 nlmsg_pid`. -/
def offsetof_nlmsg_type : Nat := 4

/-- Width in bytes of the `__u16 nlmsg_type` field. -/
def sizeof_nlmsg_type : Nat := 2

/-- Value of `sizeof(struct nlmsghdr)`: the five fields, no padding. -/
def sizeof_nlmsghdr : Nat := 4 + 2 + 2 + 4 + 4

/-- The field `hdr->nlmsg_type` of the header at the start of the buffer: the
two bytes at offsets 4 and 5 in host byte order (x86-64, little endian). -/
def nlmsg_type (buf : Buf) : Nat :=
  byteAt buf offsetof_nlmsg_type + 256 * byteAt buf (offsetof_nlmsg_type + 1)

/-- The C condition `fd >= 0 && fd < MAX_SOCK`. -/
def inBounds (fd : Int) : Prop := 0 ≤ fd ∧ fd < (MAX_SOCK : Int)

instance (fd : Int) : Decidable (inBounds fd) := by
  unfold inBounds; infer_instance

/-- Table slot of a descriptor that passed the bounds check. -/
def slot (fd : Int) (h : inBounds fd) : Fin MAX_SOCK :=
  ⟨fd.toNat, by
    have h2 := h.2
    have h1 := h.1
    omega⟩

/-- The constructor `init`: every entry is set to 0. -/
def init : Table := fun _ => 0

/-- The condition `fd >= 0 && fd < MAX_SOCK && socks[fd]` of `sendto`. -/
def is_tracked (socks : Table) (fd : Int) : Bool :=
  if h : inBounds fd then decide (socks (slot fd h) ≠ 0) else false

/-- Diagnostic printed by `socket`. -/
def msg_monitoring (fd : Int) : String :=
  "[XPFIX] fd " ++ toString fd ++ " is a netlink socket, monitoring\n"

/-- Diagnostic printed by `sendto`. -/
def msg_blocked : String := "[XPFIX] blocked type 0x16 netlink packet\n"

/-- Diagnostic printed by `close`. -/
def msg_closed (fd : Int) : String :=
  "[XPFIX] fd " ++ toString fd ++ " closed\n"

/-- The interposed `socket`. -/
def socket (real_socket : Int → Int → Int → Int) (socks : Table)
    (domain type protocol : Int) : Outcome :=
  let fd := real_socket domain type protocol
  let t0 := [Event.real_socket domain type protocol]
  if domain ≠ AF_NETLINK then
    { ret := fd, socks := socks, trace := t0 }
  else
    let t1 := t0 ++ [Event.printf (msg_monitoring fd)]
    if h : inBounds fd then
      { ret := fd, socks := Function.update socks (slot fd h) 1,
        trace := t1 ++ [Event.socks_write fd 1] }
    else
      { ret := fd, socks := socks, trace := t1 }

/-- The interposed `sendto`.  `real_sendto` is the call through the local
pointer `int (*real_sendto)(...)`; its `int` value is returned as `ssize_t`. -/
def sendto (real_sendto : Int → Buf → Nat → Int → Option Sockaddr → Nat → Int)
    (socks : Table) (fd : Int) (buf : Buf) (len : Nat) (flags : Int)
    (dest_addr : Option Sockaddr) (addrlen : Nat) : Outcome :=
  let call := Event.real_sendto fd buf len flags dest_addr addrlen
  let r := real_sendto fd buf len flags dest_addr addrlen
  if len < sizeof_nlmsghdr then
    { ret := r, socks := socks, trace := [call] }
  else if h : inBounds fd then
    let t0 := [Event.socks_read fd]
    if socks (slot fd h) ≠ 0 then
      let t1 := t0 ++ [Event.buf_read offsetof_nlmsg_type sizeof_nlmsg_type]
      if nlmsg_type buf = 0x16 then
        { ret := -1, socks := socks, trace := t1 ++ [Event.printf msg_blocked] }
      else
        { ret := r, socks := socks, trace := t1 ++ [call] }
    else
      { ret := r, socks := socks, trace := t0 ++ [call] }
  else
    { ret := r, socks := socks, trace := [call] }

/-- The interposed `send`: `return sendto(fd, buf, len, flags, 0, 0);`. -/
def send (real_sendto : Int → Buf → Nat → Int → Option Sockaddr → Nat → Int)
    (socks : Table) (fd : Int) (buf : Buf) (len : Nat) (flags : Int) : Outcome :=
  sendto real_sendto socks fd buf len flags none 0

/-- The interposed `close`. -/
def close (real_close : Int → Int) (socks : Table) (fd : Int) : Outcome :=
  if h : inBounds fd then
    let t0 := [Event.socks_read fd]
    if socks (slot fd h) ≠ 0 then
      { ret := real_close fd, socks := Function.update socks (slot fd h) 0,
        trace := t0 ++ [Event.printf (msg_closed fd), Event.socks_write fd 0,
          Event.real_close fd] }
    else
      { ret := real_close fd, socks := socks, trace := t0 ++ [Event.real_close fd] }
  else
    { ret := real_close fd, socks := socks, trace := [Event.real_close fd] }

/-- Calls of genuine functions among the effects. -/
def Event.isGenuine : Event → Bool
  | .real_socket _ _ _ => true
  | .real_sendto _ _ _ _ _ _ => true
  | .real_send _ _ _ _ => true
  | .real_close _ => true
  | _ => false

/-- Accesses to the table among the effects, with the index used. -/
def Event.tableIndex : Event → Option Int
  | .socks_read i => some i
  | .socks_write i _ => some i
  | _ => none

/-- Diagnostics among the effects. -/
def Event.isPrintf : Event → Bool
  | .printf _ => true
  | _ => false

/-- Reads of the caller's buffer among the effects. -/
def Event.isBufRead : Event → Bool
  | .buf_read _ _ => true
  | _ => false

/-- The genuine calls of a trace, in order. -/
def genuineCalls (t : List Event) : List Event := t.filter Event.isGenuine

/-- The table indices a trace touches, in order. -/
def tableIndices (t : List Event) : List Int := t.filterMap Event.tableIndex

/-- The diagnostics of a trace, in order. -/
def diagnostics (t : List Event) : List Event := t.filter Event.isPrintf

/-- The buffer reads of a trace, in order. -/
def bufReads (t : List Event) : List Event := t.filter Event.isBufRead

/-- A table with the single descriptor 7 marked, as after a netlink creation
returning 7 on the load-time table. -/
def table7 : Table := Function.update init (slot 7 (by decide)) 1

/-- A 32-byte message whose header carries `nlmsg_type = 0x16`. -/
def msg0x16 : Buf := [24, 0, 0, 0, 0x16, 0] ++ List.replicate 26 0

/-- A 32-byte message whose header carries `nlmsg_type = 0x01`. -/
def msg0x01 : Buf := [24, 0, 0, 0, 0x01, 0] ++ List.replicate 26 0

/-- A stub for the genuine `sendto` that reports every byte as sent. -/
def stub_sendto : Int → Buf → Nat → Int → Option Sockaddr → Nat → Int :=
  fun _ _ len _ _ _ => (len : Int)

/-- A stub for the genuine `socket` that returns a chosen descriptor. -/
def stub_socket (fd : Int) : Int → Int → Int → Int := fun _ _ _ => fd

/-- A stub for the genuine `close` that returns a chosen result. -/
def stub_close (r : Int) : Int → Int := fun _ => r

/-- Address family constant `AF_INET` of `<sys/socket.h>` on Linux. -/
def AF_INET : Int := 2

/-- One intercepted call of a sequence, with the value its genuine function
returns if it is called. -/
inductive Call where
  | socket (domain type protocol : Int) (genuine : Int)
  | sendto (fd : Int) (buf : Buf) (len : Nat) (flags : Int)
      (dest_addr : Option Sockaddr) (addrlen : Nat) (genuine : Int)
  | send (fd : Int) (buf : Buf) (len : Nat) (flags : Int) (genuine : Int)
  | close (fd : Int) (genuine : Int)
  deriving DecidableEq

/-- Outcome of one call of a sequence on a table. -/
def Call.exec (socks : Table) : Call → Outcome
  | .socket domain type protocol r =>
      Xpfix.socket (fun _ _ _ => r) socks domain type protocol
  | .sendto fd buf len flags dest_addr addrlen r =>
      Xpfix.sendto (fun _ _ _ _ _ _ => r) socks fd buf len flags dest_addr addrlen
  | .send fd buf len flags r =>
      Xpfix.send (fun _ _ _ _ _ _ => r) socks fd buf len flags
  | .close fd r => Xpfix.close (fun _ => r) socks fd

/-- The table after a sequence of intercepted calls. -/
def runCalls (socks : Table) (calls : List Call) : Table :=
  calls.foldl (fun s c => (c.exec s).socks) socks

/-- A netlink-family `socket` call whose genuine result is `i`. -/
def Call.isCreationOf (i : Int) : Call → Bool
  | .socket domain _ _ r => decide (domain = AF_NETLINK ∧ r = i)
  | _ => false

/-- A `socket` call of any family whose genuine result is `i`. -/
def Call.isSocketReturning (i : Int) : Call → Bool
  | .socket _ _ _ r => decide (r = i)
  | _ => false

/-- A `close` call on `i`. -/
def Call.isCloseOf (i : Int) : Call → Bool
  | .close fd _ => decide (fd = i)
  | _ => false

/-- The calls that follow the last netlink creation returning `i`, if the
sequence has one. -/
def afterLastCreation (i : Int) : List Call → Option (List Call)
  | [] => none
  | c :: rest =>
    match afterLastCreation i rest with
    | some post => some post
    | none => if c.isCreationOf i then some rest else none

/-- The sequence contains a netlink creation returning `i` and no `close` on
`i` follows the last such creation. -/
def createdNotClosed (i : Int) (calls : List Call) : Bool :=
  match afterLastCreation i calls with
  | some post => post.all (fun d => !d.isCloseOf i)
  | none => false

/-- The most recent `socket` call of the sequence that returned `i` exists and
is a netlink-family creation. -/
def lastSocketIsNetlink (i : Int) (calls : List Call) : Bool :=
  match calls.reverse.find? (Call.isSocketReturning i) with
  | some c => c.isCreationOf i
  | none => false

/-- A `socket` call returns a descriptor that is not tracked at the moment
of the call; every other call qualifies. -/
def Call.freshOn (socks : Table) : Call → Bool
  | .socket _ _ _ r => !is_tracked socks r
  | _ => true

/-- No `socket` call of the sequence returns a descriptor that is tracked when
it is called: a descriptor is handed out again only after a `close` on it. -/
def freshIds (socks : Table) : List Call → Bool
  | [] => true
  | c :: rest => c.freshOn socks && freshIds (c.exec socks).socks rest

/-- The descriptor of a `sendto` or `send` call. -/
def Call.sendFd : Call → Option Int
  | .sendto fd _ _ _ _ _ _ => some fd
  | .send fd _ _ _ _ => some fd
  | _ => none

/-- Value of a call through a pointer declared `int (*)(...)` to a function
that returns the `ssize_t` value `r` (x86-64: the low 32 bits of the result
register, read as a signed `int`). -/
def int_of_ssize (r : Int) : Int := (r + 2147483648) % 4294967296 - 2147483648

/-- The local `int (*real_sendto)(...)` of `sendto` bound by `dlsym` to a
genuine `sendto` that returns `ssize_t`. -/
def through_int_pointer
    (genuine_sendto : Int → Buf → Nat → Int → Option Sockaddr → Nat → Int) :
    Int → Buf → Nat → Int → Option Sockaddr → Nat → Int :=
  fun fd buf len flags dest_addr addrlen =>
    int_of_ssize (genuine_sendto fd buf len flags dest_addr addrlen)

/-- A sequence of calls: netlink creation of 7, a send on it, a close of
another descriptor, an internet-domain creation of 3. -/
def demoCalls : List Call :=
  [Call.socket AF_NETLINK 3 0 7, Call.sendto 7 msg0x01 32 0 none 0 32,
   Call.close 3 0, Call.socket AF_INET 1 0 3]

/-- A sequence in which descriptor 5 is returned by a netlink creation and
later, without a `close` in between, by an internet-domain creation. -/
def reuseCalls : List Call :=
  [Call.socket AF_NETLINK 3 0 5, Call.socket AF_INET 1 0 5]

/-- A 32-byte message of type 0x16 whose embedded `nlmsg_len` is 0. -/
def msg0x16_len0 : Buf := [0, 0, 0, 0, 0x16, 0] ++ List.replicate 26 7

/-! ## Suppression -/

/-- C1 (suppression): on a tracked descriptor, a send of at least
`sizeof(struct nlmsghdr)` bytes whose `nlmsg_type` is 0x16 returns -1, calls no
genuine function and leaves the table as it was. -/
theorem sendto_suppresses (real_sendto : Int → Buf → Nat → Int → Option Sockaddr → Nat → Int)
    (socks : Table) (fd : Int) (buf : Buf) (len : Nat) (flags : Int)
    (dest_addr : Option Sockaddr) (addrlen : Nat)
    (hfd : 0 ≤ fd ∧ fd < 1024) (hflag : is_tracked socks fd = true)
    (hlen : 16 ≤ len) (htype : nlmsg_type buf = 0x16) :
    (sendto real_sendto socks fd buf len flags dest_addr addrlen).ret = -1 ∧
    genuineCalls (sendto real_sendto socks fd buf len flags dest_addr addrlen).trace = [] ∧
    (sendto real_sendto socks fd buf len flags dest_addr addrlen).socks = socks := by
  have hb : inBounds fd := hfd
  have hs : socks (slot fd hb) ≠ 0 := by
    simpa [is_tracked, hb] using hflag
  have hl : ¬ len < sizeof_nlmsghdr := by
    simp only [sizeof_nlmsghdr]; omega
  simp [sendto, hl, hb, hs, htype, genuineCalls, Event.isGenuine]

/-- Scenario 3 of the specification: tracked descriptor 7, a 32-byte message
of type 0x16. -/
theorem sendto_suppresses_witness :
    (sendto stub_sendto table7 7 msg0x16 32 0 none 0).ret = -1 ∧
    genuineCalls (sendto stub_sendto table7 7 msg0x16 32 0 none 0).trace = [] ∧
    (sendto stub_sendto table7 7 msg0x16 32 0 none 0).socks = table7 :=
  sendto_suppresses stub_sendto table7 7 msg0x16 32 0 none 0
    (by decide) (by decide) (by decide) (by decide)

/-! ## Forwarding -/

/-- Outcome of `sendto` on every path but the suppressing one: the genuine
`sendto` is the only genuine call, it receives the six arguments of the caller,
its value is the return value, the table is kept and nothing is printed. -/
theorem sendto_forward (real_sendto : Int → Buf → Nat → Int → Option Sockaddr → Nat → Int)
    (socks : Table) (fd : Int) (buf : Buf) (len : Nat) (flags : Int)
    (dest_addr : Option Sockaddr) (addrlen : Nat)
    (h : ¬ (sizeof_nlmsghdr ≤ len ∧ is_tracked socks fd = true ∧ nlmsg_type buf = 0x16)) :
    (sendto real_sendto socks fd buf len flags dest_addr addrlen).ret
      = real_sendto fd buf len flags dest_addr addrlen ∧
    genuineCalls (sendto real_sendto socks fd buf len flags dest_addr addrlen).trace
      = [Event.real_sendto fd buf len flags dest_addr addrlen] ∧
    (sendto real_sendto socks fd buf len flags dest_addr addrlen).socks = socks ∧
    diagnostics (sendto real_sendto socks fd buf len flags dest_addr addrlen).trace = [] := by
  by_cases hl : len < sizeof_nlmsghdr
  · simp [sendto, hl, genuineCalls, diagnostics, Event.isGenuine, Event.isPrintf]
  · by_cases hb : inBounds fd
    · by_cases hs : socks (slot fd hb) ≠ 0
      · have ht : ¬ nlmsg_type buf = 0x16 := by
          intro ht
          exact h ⟨Nat.le_of_not_lt hl, by simp [is_tracked, hb, hs], ht⟩
        simp [sendto, hl, hb, hs, ht, genuineCalls, diagnostics, Event.isGenuine,
          Event.isPrintf]
      · simp [sendto, hl, hb, hs, genuineCalls, diagnostics, Event.isGenuine,
          Event.isPrintf]
    · simp [sendto, hl, hb, genuineCalls, diagnostics, Event.isGenuine, Event.isPrintf]

/-- C2 (selective suppression): on a tracked descriptor, a buffer whose
`nlmsg_type` differs from 0x16 is forwarded whatever its length: the genuine
`sendto` is called exactly once, with the six arguments of the caller, and the
value of that call is returned. -/
theorem sendto_forwards_other_types
    (real_sendto : Int → Buf → Nat → Int → Option Sockaddr → Nat → Int)
    (socks : Table) (fd : Int) (buf : Buf) (len : Nat) (flags : Int)
    (dest_addr : Option Sockaddr) (addrlen : Nat)
    (hfd : 0 ≤ fd ∧ fd < 1024) (hflag : is_tracked socks fd = true)
    (htype : nlmsg_type buf ≠ 0x16) :
    genuineCalls (sendto real_sendto socks fd buf len flags dest_addr addrlen).trace
      = [Event.real_sendto fd buf len flags dest_addr addrlen] ∧
    (sendto real_sendto socks fd buf len flags dest_addr addrlen).ret
      = real_sendto fd buf len flags dest_addr addrlen := by
  have h := sendto_forward real_sendto socks fd buf len flags dest_addr addrlen
    (fun hc => htype hc.2.2)
  exact ⟨h.2.1, h.1⟩

/-- Scenario 4 of the specification: tracked descriptor 7, a 32-byte message
of type 0x01; the stub is called with the original arguments and its value 32
comes back. -/
theorem sendto_forwards_other_types_witness :
    genuineCalls (sendto stub_sendto table7 7 msg0x01 32 0 none 0).trace
      = [Event.real_sendto 7 msg0x01 32 0 none 0] ∧
    (sendto stub_sendto table7 7 msg0x01 32 0 none 0).ret
      = stub_sendto 7 msg0x01 32 0 none 0 :=
  sendto_forwards_other_types stub_sendto table7 7 msg0x01 32 0 none 0
    (by decide) (by decide) (by decide)

/-- C3 (untracked pass-through): when `is_tracked` is false for the descriptor
(flag clear, negative, or at least 1024), every buffer and every length is
forwarded: the genuine `sendto` is called exactly once with the arguments of
the caller and its value is returned; the blocking path is not taken, so no
"blocked" diagnostic is printed. -/
theorem sendto_untracked_passthrough
    (real_sendto : Int → Buf → Nat → Int → Option Sockaddr → Nat → Int)
    (socks : Table) (fd : Int) (buf : Buf) (len : Nat) (flags : Int)
    (dest_addr : Option Sockaddr) (addrlen : Nat)
    (hun : is_tracked socks fd = false) :
    genuineCalls (sendto real_sendto socks fd buf len flags dest_addr addrlen).trace
      = [Event.real_sendto fd buf len flags dest_addr addrlen] ∧
    (sendto real_sendto socks fd buf len flags dest_addr addrlen).ret
      = real_sendto fd buf len flags dest_addr addrlen ∧
    diagnostics (sendto real_sendto socks fd buf len flags dest_addr addrlen).trace = [] := by
  have h := sendto_forward real_sendto socks fd buf len flags dest_addr addrlen
    (fun hc => by simp [hun] at hc)
  exact ⟨h.2.1, h.1, h.2.2.2⟩

/-- An untracked descriptor 3 sending a 32-byte message of type 0x16. -/
theorem sendto_untracked_passthrough_witness :
    genuineCalls (sendto stub_sendto table7 3 msg0x16 32 0 none 0).trace
      = [Event.real_sendto 3 msg0x16 32 0 none 0] ∧
    (sendto stub_sendto table7 3 msg0x16 32 0 none 0).ret
      = stub_sendto 3 msg0x16 32 0 none 0 ∧
    diagnostics (sendto stub_sendto table7 3 msg0x16 32 0 none 0).trace = [] :=
  sendto_untracked_passthrough stub_sendto table7 3 msg0x16 32 0 none 0 (by decide)

/-- C4 (length gate): a send shorter than `sizeof(struct nlmsghdr)` performs
one effect only, the genuine `sendto` with the arguments of the caller, and
returns its value; the table is neither read nor written and no byte of the
buffer is read, whatever the descriptor and the bytes. -/
theorem sendto_length_gate
    (real_sendto : Int → Buf → Nat → Int → Option Sockaddr → Nat → Int)
    (socks : Table) (fd : Int) (buf : Buf) (len : Nat) (flags : Int)
    (dest_addr : Option Sockaddr) (addrlen : Nat)
    (hlen : len < 16) :
    (sendto real_sendto socks fd buf len flags dest_addr addrlen).trace
      = [Event.real_sendto fd buf len flags dest_addr addrlen] ∧
    (sendto real_sendto socks fd buf len flags dest_addr addrlen).ret
      = real_sendto fd buf len flags dest_addr addrlen ∧
    bufReads (sendto real_sendto socks fd buf len flags dest_addr addrlen).trace = [] ∧
    tableIndices (sendto real_sendto socks fd buf len flags dest_addr addrlen).trace = [] ∧
    (sendto real_sendto socks fd buf len flags dest_addr addrlen).socks = socks := by
  have hl : len < sizeof_nlmsghdr := by
    simp only [sizeof_nlmsghdr]; omega
  simp [sendto, hl, bufReads, tableIndices, Event.isBufRead, Event.tableIndex]

/-- Tracked descriptor 7, bytes 4..5 encoding 0x16, declared length 15: the
message is forwarded. -/
theorem sendto_length_gate_witness :
    is_tracked table7 7 = true ∧ nlmsg_type msg0x16 = 0x16 ∧
    (sendto stub_sendto table7 7 msg0x16 15 0 none 0).trace
      = [Event.real_sendto 7 msg0x16 15 0 none 0] ∧
    (sendto stub_sendto table7 7 msg0x16 15 0 none 0).ret
      = stub_sendto 7 msg0x16 15 0 none 0 ∧
    bufReads (sendto stub_sendto table7 7 msg0x16 15 0 none 0).trace = [] ∧
    tableIndices (sendto stub_sendto table7 7 msg0x16 15 0 none 0).trace = [] ∧
    (sendto stub_sendto table7 7 msg0x16 15 0 none 0).socks = table7 :=
  ⟨by decide, by decide,
    sendto_length_gate stub_sendto table7 7 msg0x16 15 0 none 0 (by decide)⟩

/-! ## Socket creation -/

/-- C5, as stated, fails: a netlink creation that succeeds with descriptor
1024 returns 1024 and leaves `is_tracked 1024` false, because the mark is
guarded by `fd < MAX_SOCK`. -/
theorem socket_tracks_any_success_counterexample :
    0 ≤ stub_socket 1024 AF_NETLINK 3 0 ∧
    (socket (stub_socket 1024) init AF_NETLINK 3 0).ret = 1024 ∧
    is_tracked (socket (stub_socket 1024) init AF_NETLINK 3 0).socks 1024 = false := by
  decide

/-- C5, amended (tracking activation): a netlink creation whose genuine call
succeeds with a descriptor in `[0, 1024)` returns that descriptor and makes
`is_tracked` true for it, whatever the table was. -/
theorem socket_tracks_netlink (real_socket : Int → Int → Int → Int) (socks : Table)
    (domain type protocol : Int)
    (hdom : domain = AF_NETLINK)
    (hfd : 0 ≤ real_socket domain type protocol ∧ real_socket domain type protocol < 1024) :
    (socket real_socket socks domain type protocol).ret = real_socket domain type protocol ∧
    is_tracked (socket real_socket socks domain type protocol).socks
      (real_socket domain type protocol) = true := by
  have hb : inBounds (real_socket domain type protocol) := hfd
  have hd : ¬ domain ≠ AF_NETLINK := by simp [hdom]
  simp only [socket, hd, hb, if_false, dite_true, is_tracked]
  simp

/-- Scenario 1 of the specification: a netlink creation returning 7 on the
load-time table. -/
theorem socket_tracks_netlink_witness :
    (socket (stub_socket 7) init AF_NETLINK 3 0).ret = stub_socket 7 AF_NETLINK 3 0 ∧
    is_tracked (socket (stub_socket 7) init AF_NETLINK 3 0).socks
      (stub_socket 7 AF_NETLINK 3 0) = true :=
  socket_tracks_netlink (stub_socket 7) init AF_NETLINK 3 0 rfl (by decide)

/-- C6 (failed creation is never tracked): when the genuine `socket` returns a
negative value, `socket` returns that value and the table is the one it was
given, for every domain. -/
theorem socket_failure_untracked (real_socket : Int → Int → Int → Int) (socks : Table)
    (domain type protocol : Int)
    (hneg : real_socket domain type protocol < 0) :
    (socket real_socket socks domain type protocol).ret = real_socket domain type protocol ∧
    (socket real_socket socks domain type protocol).socks = socks := by
  have hb : ¬ inBounds (real_socket domain type protocol) := fun hb => by
    have := hb.1
    omega
  by_cases hd : domain ≠ AF_NETLINK
  · simp [socket, hd]
  · simp [socket, hd, hb]

/-- A failing netlink creation on a table that tracks descriptor 7. -/
theorem socket_failure_untracked_witness :
    (socket (stub_socket (-1)) table7 AF_NETLINK 3 0).ret = stub_socket (-1) AF_NETLINK 3 0 ∧
    (socket (stub_socket (-1)) table7 AF_NETLINK 3 0).socks = table7 :=
  socket_failure_untracked (stub_socket (-1)) table7 AF_NETLINK 3 0 (by decide)

/-- C7 (pass-through fidelity of creation): for a domain other than
`AF_NETLINK` the only effect of `socket` is one call of the genuine `socket`
with the same three arguments; its value is returned, nothing is printed and
the table is the one it was given. -/
theorem socket_other_domain_passthrough (real_socket : Int → Int → Int → Int)
    (socks : Table) (domain type protocol : Int)
    (hdom : domain ≠ AF_NETLINK) :
    (socket real_socket socks domain type protocol).trace
      = [Event.real_socket domain type protocol] ∧
    genuineCalls (socket real_socket socks domain type protocol).trace
      = [Event.real_socket domain type protocol] ∧
    (socket real_socket socks domain type protocol).ret = real_socket domain type protocol ∧
    diagnostics (socket real_socket socks domain type protocol).trace = [] ∧
    (socket real_socket socks domain type protocol).socks = socks := by
  simp [socket, hdom, genuineCalls, diagnostics, Event.isGenuine, Event.isPrintf]

/-- Scenario 2 of the specification: an internet-domain creation returning 3
leaves descriptor 3 untracked. -/
theorem socket_other_domain_passthrough_witness :
    (socket (stub_socket 3) init AF_INET 1 0).trace = [Event.real_socket AF_INET 1 0] ∧
    genuineCalls (socket (stub_socket 3) init AF_INET 1 0).trace
      = [Event.real_socket AF_INET 1 0] ∧
    (socket (stub_socket 3) init AF_INET 1 0).ret = stub_socket 3 AF_INET 1 0 ∧
    diagnostics (socket (stub_socket 3) init AF_INET 1 0).trace = [] ∧
    (socket (stub_socket 3) init AF_INET 1 0).socks = init :=
  socket_other_domain_passthrough (stub_socket 3) init AF_INET 1 0 (by decide)

/-! ## Close -/

/-- The table after `close`: the entry of an in-range descriptor is zero. -/
theorem close_slot_zero (real_close : Int → Int) (socks : Table) (fd : Int)
    (hb : inBounds fd) : (close real_close socks fd).socks (slot fd hb) = 0 := by
  by_cases hs : socks (slot fd hb) ≠ 0
  · simp [close, hb, hs]
  · have hz : socks (slot fd hb) = 0 := not_not.mp hs
    simp [close, hb, hz]

/-- The genuine calls of `close`: one call of the genuine `close`. -/
theorem close_genuineCalls (real_close : Int → Int) (socks : Table) (fd : Int) :
    genuineCalls (close real_close socks fd).trace = [Event.real_close fd] := by
  by_cases hb : inBounds fd
  · by_cases hs : socks (slot fd hb) ≠ 0
    · simp [close, hb, hs, genuineCalls, Event.isGenuine]
    · simp [close, hb, hs, genuineCalls, Event.isGenuine]
  · simp [close, hb, genuineCalls, Event.isGenuine]

/-- C8 (close clears tracking): after `close` on a tracked descriptor,
`is_tracked` is false for it, whatever the genuine `close` returns; and for
every descriptor and table, `close` calls the genuine `close` exactly once,
with that descriptor. -/
theorem close_clears_tracking (real_close : Int → Int) (socks : Table) (id : Int)
    (htracked : is_tracked socks id = true) :
    is_tracked (close real_close socks id).socks id = false ∧
    (∀ (socks0 : Table) (id0 : Int),
      genuineCalls (close real_close socks0 id0).trace = [Event.real_close id0]) := by
  refine ⟨?_, close_genuineCalls real_close⟩
  by_cases hb : inBounds id
  · simp [is_tracked, hb, close_slot_zero real_close socks id hb]
  · simp [is_tracked, hb] at htracked

/-- Scenario 6 of the specification: closing the tracked descriptor 7, with a
genuine `close` that fails. -/
theorem close_clears_tracking_witness :
    is_tracked table7 7 = true ∧
    is_tracked (close (stub_close (-1)) table7 7).socks 7 = false ∧
    (∀ (socks0 : Table) (id0 : Int),
      genuineCalls (close (stub_close (-1)) socks0 id0).trace = [Event.real_close id0]) :=
  ⟨by decide, close_clears_tracking (stub_close (-1)) table7 7 (by decide)⟩

/-! ## Bounds of the table accesses -/

/-- Every table access of `socket` uses an index in `[0, 1024)`. -/
theorem socket_indices_inBounds (real_socket : Int → Int → Int → Int) (socks : Table)
    (domain type protocol : Int) :
    ∀ i ∈ tableIndices (socket real_socket socks domain type protocol).trace,
      0 ≤ i ∧ i < 1024 := by
  intro i hi
  by_cases hd : domain ≠ AF_NETLINK
  · simp [socket, hd, tableIndices, Event.tableIndex] at hi
  · by_cases hb : inBounds (real_socket domain type protocol)
    · simp [socket, hd, hb, tableIndices, Event.tableIndex] at hi
      rw [hi]; exact hb
    · simp [socket, hd, hb, tableIndices, Event.tableIndex] at hi

/-- Every table access of `close` uses an index in `[0, 1024)`. -/
theorem close_indices_inBounds (real_close : Int → Int) (socks : Table) (fd : Int) :
    ∀ i ∈ tableIndices (close real_close socks fd).trace, 0 ≤ i ∧ i < 1024 := by
  intro i hi
  by_cases hb : inBounds fd
  · by_cases hs : socks (slot fd hb) ≠ 0
    · simp [close, hb, hs, tableIndices, Event.tableIndex] at hi
      rw [hi]; exact hb
    · simp [close, hb, hs, tableIndices, Event.tableIndex] at hi
      rw [hi]; exact hb
  · simp [close, hb, tableIndices, Event.tableIndex] at hi

/-- Every table access of `sendto` uses an index in `[0, 1024)`. -/
theorem sendto_indices_inBounds
    (real_sendto : Int → Buf → Nat → Int → Option Sockaddr → Nat → Int)
    (socks : Table) (fd : Int) (buf : Buf) (len : Nat) (flags : Int)
    (dest_addr : Option Sockaddr) (addrlen : Nat) :
    ∀ i ∈ tableIndices (sendto real_sendto socks fd buf len flags dest_addr addrlen).trace,
      0 ≤ i ∧ i < 1024 := by
  intro i hi
  by_cases hl : len < sizeof_nlmsghdr
  · simp [sendto, hl, tableIndices, Event.tableIndex] at hi
  · by_cases hb : inBounds fd
    · by_cases hs : socks (slot fd hb) ≠ 0
      · by_cases ht : nlmsg_type buf = 0x16
        · simp [sendto, hl, hb, hs, ht, tableIndices, Event.tableIndex] at hi
          rw [hi]; exact hb
        · simp [sendto, hl, hb, hs, ht, tableIndices, Event.tableIndex] at hi
          rw [hi]; exact hb
      · simp [sendto, hl, hb, hs, tableIndices, Event.tableIndex] at hi
        rw [hi]; exact hb
    · simp [sendto, hl, hb, tableIndices, Event.tableIndex] at hi

/-- C9 (bounds safety): for a descriptor outside `[0, 1024)`, the mark of a
netlink `socket` returning it, `close` on it and `sendto` on it touch no table
entry and keep the table; the descriptor is untracked (`close` prints nothing,
`sendto` forwards); and in every call of the three functions each table index
used lies in `[0, 1024)`. -/
theorem bounds_safety (id : Int) (hout : id < 0 ∨ 1024 ≤ id) :
    (∀ (real_socket : Int → Int → Int → Int) (socks : Table) (type protocol : Int),
      real_socket AF_NETLINK type protocol = id →
      tableIndices (socket real_socket socks AF_NETLINK type protocol).trace = [] ∧
      (socket real_socket socks AF_NETLINK type protocol).socks = socks ∧
      is_tracked (socket real_socket socks AF_NETLINK type protocol).socks id = false) ∧
    (∀ (real_close : Int → Int) (socks : Table),
      tableIndices (close real_close socks id).trace = [] ∧
      (close real_close socks id).socks = socks ∧
      diagnostics (close real_close socks id).trace = []) ∧
    (∀ (real_sendto : Int → Buf → Nat → Int → Option Sockaddr → Nat → Int)
      (socks : Table) (buf : Buf) (len : Nat) (flags : Int)
      (dest_addr : Option Sockaddr) (addrlen : Nat),
      tableIndices (sendto real_sendto socks id buf len flags dest_addr addrlen).trace = [] ∧
      (sendto real_sendto socks id buf len flags dest_addr addrlen).socks = socks ∧
      genuineCalls (sendto real_sendto socks id buf len flags dest_addr addrlen).trace
        = [Event.real_sendto id buf len flags dest_addr addrlen] ∧
      (sendto real_sendto socks id buf len flags dest_addr addrlen).ret
        = real_sendto id buf len flags dest_addr addrlen) ∧
    (∀ (socks : Table), is_tracked socks id = false) ∧
    (∀ (real_socket : Int → Int → Int → Int) (socks : Table) (domain type protocol : Int),
      ∀ i ∈ tableIndices (socket real_socket socks domain type protocol).trace,
        0 ≤ i ∧ i < 1024) ∧
    (∀ (real_close : Int → Int) (socks : Table) (fd : Int),
      ∀ i ∈ tableIndices (close real_close socks fd).trace, 0 ≤ i ∧ i < 1024) ∧
    (∀ (real_sendto : Int → Buf → Nat → Int → Option Sockaddr → Nat → Int)
      (socks : Table) (fd : Int) (buf : Buf) (len : Nat) (flags : Int)
      (dest_addr : Option Sockaddr) (addrlen : Nat),
      ∀ i ∈ tableIndices (sendto real_sendto socks fd buf len flags dest_addr addrlen).trace,
        0 ≤ i ∧ i < 1024) := by
  have hb : ¬ inBounds id := fun hb => by
    have h1 := hb.1
    have h2 : id < 1024 := hb.2
    omega
  have hun : ∀ socks : Table, is_tracked socks id = false := fun socks => by
    simp [is_tracked, hb]
  refine ⟨?_, ?_, ?_, hun, socket_indices_inBounds, close_indices_inBounds,
    sendto_indices_inBounds⟩
  · intro real_socket socks type protocol hret
    have hb2 : ¬ inBounds (real_socket AF_NETLINK type protocol) := by rw [hret]; exact hb
    simp [socket, hb2, hun, tableIndices, Event.tableIndex]
  · intro real_close socks
    simp [close, hb, tableIndices, diagnostics, Event.tableIndex, Event.isPrintf]
  · intro real_sendto socks buf len flags dest_addr addrlen
    have hf := sendto_forward real_sendto socks id buf len flags dest_addr addrlen
      (fun hc => by simp [hun] at hc)
    refine ⟨?_, hf.2.2.1, hf.2.1, hf.1⟩
    by_cases hl : len < sizeof_nlmsghdr
    · simp [sendto, hl, tableIndices, Event.tableIndex]
    · simp [sendto, hl, hb, tableIndices, Event.tableIndex]

/-- The descriptor 1024, one past the last table entry. -/
theorem bounds_safety_witness :
    tableIndices (socket (stub_socket 1024) table7 AF_NETLINK 3 0).trace = [] ∧
    tableIndices (close (stub_close 0) table7 1024).trace = [] ∧
    tableIndices (sendto stub_sendto table7 1024 msg0x16 32 0 none 0).trace = [] ∧
    (sendto stub_sendto table7 1024 msg0x16 32 0 none 0).ret = 32 ∧
    is_tracked table7 1024 = false :=
  have h := bounds_safety 1024 (Or.inr (by decide))
  ⟨(h.1 (stub_socket 1024) table7 3 0 rfl).1, (h.2.1 (stub_close 0) table7).1,
    (h.2.2.1 stub_sendto table7 msg0x16 32 0 none 0).1,
    (h.2.2.1 stub_sendto table7 msg0x16 32 0 none 0).2.2.2,
    h.2.2.2.1 table7⟩

/-! ## `send` -/

/-- The guard under which `sendto` suppresses: the blocking path is taken, with
return value -1 and no genuine call, exactly when the length reaches the header
size, the descriptor is tracked and `nlmsg_type` is 0x16. -/
theorem sendto_blocks_iff
    (real_sendto : Int → Buf → Nat → Int → Option Sockaddr → Nat → Int)
    (socks : Table) (fd : Int) (buf : Buf) (len : Nat) (flags : Int)
    (dest_addr : Option Sockaddr) (addrlen : Nat) :
    genuineCalls (sendto real_sendto socks fd buf len flags dest_addr addrlen).trace = [] ↔
      (sizeof_nlmsghdr ≤ len ∧ is_tracked socks fd = true ∧ nlmsg_type buf = 0x16) := by
  constructor
  · intro hnil
    by_contra hc
    have hf := sendto_forward real_sendto socks fd buf len flags dest_addr addrlen hc
    rw [hf.2.1] at hnil
    exact List.cons_ne_nil _ _ hnil
  · rintro ⟨hl, htr, ht⟩
    have hb : inBounds fd := by
      by_contra hb
      simp [is_tracked, hb] at htr
    have hs : socks (slot fd hb) ≠ 0 := by
      simpa [is_tracked, hb] using htr
    have hl2 : ¬ len < sizeof_nlmsghdr := Nat.not_lt.mpr hl
    simp [sendto, hl2, hb, hs, ht, genuineCalls, Event.isGenuine]

/-- C10 (`send` refines `sendto`): `send` has the same return value, table and
effects as `sendto` with a null destination and address length 0; every genuine
call it makes is the genuine `sendto` with those destination arguments, never
the genuine `send`; and it suppresses under the same guard. -/
theorem send_eq_sendto
    (real_sendto : Int → Buf → Nat → Int → Option Sockaddr → Nat → Int)
    (socks : Table) (fd : Int) (buf : Buf) (len : Nat) (flags : Int) :
    (send real_sendto socks fd buf len flags).ret
      = (sendto real_sendto socks fd buf len flags none 0).ret ∧
    (send real_sendto socks fd buf len flags).trace
      = (sendto real_sendto socks fd buf len flags none 0).trace ∧
    (send real_sendto socks fd buf len flags).socks
      = (sendto real_sendto socks fd buf len flags none 0).socks ∧
    (∀ e ∈ genuineCalls (send real_sendto socks fd buf len flags).trace,
      e = Event.real_sendto fd buf len flags none 0) ∧
    (genuineCalls (send real_sendto socks fd buf len flags).trace = [] ↔
      (sizeof_nlmsghdr ≤ len ∧ is_tracked socks fd = true ∧ nlmsg_type buf = 0x16)) := by
  refine ⟨rfl, rfl, rfl, ?_, sendto_blocks_iff real_sendto socks fd buf len flags none 0⟩
  intro e he
  by_cases hc : sizeof_nlmsghdr ≤ len ∧ is_tracked socks fd = true ∧ nlmsg_type buf = 0x16
  · have hnil := (sendto_blocks_iff real_sendto socks fd buf len flags none 0).2 hc
    simp only [send] at he
    rw [hnil] at he
    exact absurd he (List.not_mem_nil e)
  · have hf := sendto_forward real_sendto socks fd buf len flags none 0 hc
    simp only [send] at he
    rw [hf.2.1] at he
    exact List.mem_singleton.mp he

/-! ## Effect of each call on the tracking of a descriptor -/

/-- Slots of two in-range descriptors coincide only for equal descriptors. -/
theorem slot_eq_iff (a b : Int) (ha : inBounds a) (hb : inBounds b) :
    slot a ha = slot b hb ↔ a = b := by
  have h1 := ha.1
  have h2 := hb.1
  constructor
  · intro h
    have h3 : a.toNat = b.toNat := congrArg Fin.val h
    omega
  · intro h
    subst h
    rfl

/-- Tracking of an in-range descriptor after a write to the table. -/
theorem is_tracked_update (socks : Table) (j i : Int) (hj : inBounds j) (hi : inBounds i)
    (v : Int) :
    is_tracked (Function.update socks (slot j hj) v) i
      = if j = i then decide (v ≠ 0) else is_tracked socks i := by
  by_cases hji : j = i
  · subst hji
    simp [is_tracked, hi]
  · have hne : slot i hi ≠ slot j hj := fun h => hji ((slot_eq_iff i j hi hj).1 h).symm
    simp [is_tracked, hi, hji, Function.update_noteq hne]

/-- Tracking of an in-range descriptor after `socket`. -/
theorem socket_is_tracked (real_socket : Int → Int → Int → Int) (socks : Table)
    (domain type protocol : Int) (i : Int) (hi : inBounds i) :
    is_tracked (socket real_socket socks domain type protocol).socks i
      = if domain = AF_NETLINK ∧ real_socket domain type protocol = i then true
        else is_tracked socks i := by
  by_cases hd : domain ≠ AF_NETLINK
  · simp [socket, hd]
  · have hd2 : domain = AF_NETLINK := not_not.mp hd
    by_cases hb : inBounds (real_socket domain type protocol)
    · simp only [socket, hd, hb, if_false, dite_true]
      rw [is_tracked_update socks _ i hb hi 1]
      simp [hd2]
    · have hne : ¬ real_socket domain type protocol = i := fun h => hb (h ▸ hi)
      simp [socket, hd, hb, hne]

/-- The table after `sendto` is the table before it. -/
theorem sendto_socks (real_sendto : Int → Buf → Nat → Int → Option Sockaddr → Nat → Int)
    (socks : Table) (fd : Int) (buf : Buf) (len : Nat) (flags : Int)
    (dest_addr : Option Sockaddr) (addrlen : Nat) :
    (sendto real_sendto socks fd buf len flags dest_addr addrlen).socks = socks := by
  unfold sendto
  simp only []
  split_ifs <;> rfl

/-- Tracking of an in-range descriptor after `close`. -/
theorem close_is_tracked (real_close : Int → Int) (socks : Table) (fd : Int)
    (i : Int) (hi : inBounds i) :
    is_tracked (close real_close socks fd).socks i
      = if fd = i then false else is_tracked socks i := by
  by_cases hb : inBounds fd
  · by_cases hs : socks (slot fd hb) ≠ 0
    · simp only [close, hb, dite_true]
      rw [if_pos hs, is_tracked_update socks fd i hb hi 0]
      simp
    · by_cases hfi : fd = i
      · subst hfi
        simp [close, hb, hs, is_tracked]
      · simp [close, hb, hs, hfi]
  · have hne : ¬ fd = i := fun h => hb (h ▸ hi)
    simp [close, hb, hne]

/-! ## Results and diagnostics of `socket` and `close` -/

/-- C11 (result transparency of `socket` and `close`): the first effect of
`socket` is the genuine `socket` with the three arguments of the caller, no
other genuine call follows, and its value is the return value, for every
domain and every value; `close` returns the value of the genuine `close` on
the same descriptor, whatever the table. -/
theorem socket_close_return_genuine (real_socket : Int → Int → Int → Int)
    (real_close : Int → Int) (socks : Table) (domain type protocol : Int) (id : Int) :
    (∃ rest, (socket real_socket socks domain type protocol).trace
        = Event.real_socket domain type protocol :: rest ∧
      genuineCalls rest = [] ∧
      (tableIndices rest = [] ∨ tableIndices rest = [real_socket domain type protocol])) ∧
    genuineCalls (socket real_socket socks domain type protocol).trace
      = [Event.real_socket domain type protocol] ∧
    (socket real_socket socks domain type protocol).ret = real_socket domain type protocol ∧
    (close real_close socks id).ret = real_close id := by
  refine ⟨?_, ?_, ?_, ?_⟩
  · by_cases hd : domain ≠ AF_NETLINK
    · exact ⟨[], by simp [socket, hd], rfl, Or.inl rfl⟩
    · by_cases hb : inBounds (real_socket domain type protocol)
      · exact ⟨[Event.printf (msg_monitoring (real_socket domain type protocol)),
          Event.socks_write (real_socket domain type protocol) 1],
          by simp [socket, hd, hb], rfl, Or.inr rfl⟩
      · exact ⟨[Event.printf (msg_monitoring (real_socket domain type protocol))],
          by simp [socket, hd, hb], rfl, Or.inl rfl⟩
  · by_cases hd : domain ≠ AF_NETLINK
    · simp [socket, hd, genuineCalls, Event.isGenuine]
    · by_cases hb : inBounds (real_socket domain type protocol)
      · simp [socket, hd, hb, genuineCalls, Event.isGenuine]
      · simp [socket, hd, hb, genuineCalls, Event.isGenuine]
  · by_cases hd : domain ≠ AF_NETLINK
    · simp [socket, hd]
    · by_cases hb : inBounds (real_socket domain type protocol)
      · simp [socket, hd, hb]
      · simp [socket, hd, hb]
  · by_cases hb : inBounds id
    · by_cases hs : socks (slot id hb) ≠ 0
      · simp [close, hb, hs]
      · simp [close, hb, hs]
    · simp [close, hb]

/-- C12, evaluated where it fails: a netlink creation whose genuine call fails
with -1, and one that succeeds with 1024, both print the "monitoring"
diagnostic although no table entry is marked. -/
theorem socket_monitoring_printed_unmarked :
    diagnostics (socket (stub_socket (-1)) init AF_NETLINK 3 0).trace
      = [Event.printf "[XPFIX] fd -1 is a netlink socket, monitoring\n"] ∧
    (socket (stub_socket (-1)) init AF_NETLINK 3 0).socks = init ∧
    tableIndices (socket (stub_socket (-1)) init AF_NETLINK 3 0).trace = [] ∧
    diagnostics (socket (stub_socket 1024) init AF_NETLINK 3 0).trace
      = [Event.printf "[XPFIX] fd 1024 is a netlink socket, monitoring\n"] ∧
    (socket (stub_socket 1024) init AF_NETLINK 3 0).socks = init ∧
    tableIndices (socket (stub_socket 1024) init AF_NETLINK 3 0).trace = [] := by
  refine ⟨by decide, rfl, by decide, by decide, rfl, by decide⟩

/-! ## Sequences of calls -/

/-- Tracking of an in-range descriptor after one call of a sequence. -/
theorem exec_is_tracked (socks : Table) (c : Call) (i : Int) (hi : inBounds i) :
    is_tracked (c.exec socks).socks i
      = if c.isCreationOf i = true then true
        else if c.isCloseOf i = true then false else is_tracked socks i := by
  cases c with
  | socket domain type protocol r =>
    simp [Call.exec, Call.isCreationOf, Call.isCloseOf, socket_is_tracked _ _ _ _ _ i hi]
  | sendto fd buf len flags dest_addr addrlen r =>
    simp [Call.exec, Call.isCreationOf, Call.isCloseOf, sendto_socks]
  | send fd buf len flags r =>
    simp [Call.exec, Call.isCreationOf, Call.isCloseOf, send, sendto_socks]
  | close fd r =>
    simp [Call.exec, Call.isCreationOf, Call.isCloseOf, close_is_tracked _ _ _ i hi]

/-- The table after a sequence extended by one call. -/
theorem runCalls_snoc (socks : Table) (calls : List Call) (c : Call) :
    runCalls socks (calls ++ [c]) = (c.exec (runCalls socks calls)).socks := by
  simp [runCalls, List.foldl_append]

/-- The calls after the last creation, for a sequence extended by one call. -/
theorem afterLastCreation_snoc (i : Int) (calls : List Call) (c : Call) :
    afterLastCreation i (calls ++ [c])
      = if c.isCreationOf i = true then some []
        else (afterLastCreation i calls).map (fun post => post ++ [c]) := by
  induction calls with
  | nil =>
    by_cases hc : c.isCreationOf i = true
    · simp [afterLastCreation, hc]
    · simp [afterLastCreation, hc]
  | cons d rest ih =>
    by_cases hc : c.isCreationOf i = true
    · rw [if_pos hc] at ih
      rw [if_pos hc]
      simp [afterLastCreation, ih]
    · rw [if_neg hc] at ih
      rw [if_neg hc]
      have hstep : afterLastCreation i (d :: (rest ++ [c]))
          = match afterLastCreation i (rest ++ [c]) with
            | some post => some post
            | none => if d.isCreationOf i then some (rest ++ [c]) else none := rfl
      have hstep0 : afterLastCreation i (d :: rest)
          = match afterLastCreation i rest with
            | some post => some post
            | none => if d.isCreationOf i then some rest else none := rfl
      rw [List.cons_append, hstep, hstep0, ih]
      cases hrest : afterLastCreation i rest with
      | some post => rfl
      | none =>
        by_cases hd : d.isCreationOf i = true
        · simp [hd]
        · simp [hd]

/-- The predicate "created and not closed since" for a sequence extended by
one call. -/
theorem createdNotClosed_snoc (i : Int) (calls : List Call) (c : Call) :
    createdNotClosed i (calls ++ [c])
      = if c.isCreationOf i = true then true
        else if c.isCloseOf i = true then false else createdNotClosed i calls := by
  unfold createdNotClosed
  rw [afterLastCreation_snoc]
  by_cases hc : c.isCreationOf i = true
  · simp [hc]
  · cases hrest : afterLastCreation i calls with
    | some post =>
      by_cases hcl : c.isCloseOf i = true
      · simp [hc, hcl]
      · simp [hc, hcl]
    | none => simp [hc]

/-- From the load-time table, an in-range flag is set after a sequence of
calls exactly when the descriptor was created by a netlink `socket` call of
the sequence and not closed since its last such creation. -/
theorem runCalls_is_tracked (calls : List Call) (i : Int) (hi : inBounds i) :
    is_tracked (runCalls init calls) i = createdNotClosed i calls := by
  induction calls using List.reverseRecOn with
  | nil => simp [runCalls, is_tracked, hi, init, createdNotClosed, afterLastCreation]
  | append_singleton calls c ih =>
    rw [runCalls_snoc, exec_is_tracked _ _ _ hi, createdNotClosed_snoc, ih]

/-- C13 (table invariant over sequences): starting from the load-time table,
after any finite sequence of intercepted calls with any arguments and any
genuine results, the flag at an index `i` of `[0, 1024)` is nonzero exactly
when the sequence contains a netlink-family `socket` call whose genuine result
was `i` and no `close` on `i` follows the last such creation. -/
theorem table_invariant (calls : List Call) (i : Int) (hi : 0 ≤ i ∧ i < 1024) :
    runCalls init calls (slot i hi) ≠ 0 ↔ createdNotClosed i calls = true := by
  have hb : inBounds i := hi
  have h := runCalls_is_tracked calls i hb
  rw [← h]
  simp [is_tracked, hb]

/-- After the sequence `demoCalls` descriptor 7 is flagged. -/
theorem table_invariant_witness :
    createdNotClosed 7 demoCalls = true ∧
    runCalls init demoCalls (slot 7 (by decide)) ≠ 0 :=
  ⟨by decide, (table_invariant demoCalls 7 (by decide)).2 (by decide)⟩

/-! ## Persistence of tracking -/

/-- A tracked descriptor is in range. -/
theorem is_tracked_inBounds (socks : Table) (id : Int) (h : is_tracked socks id = true) :
    inBounds id := by
  by_contra hb
  simp [is_tracked, hb] at h

/-- C14 (tracking persistence): a tracked descriptor stays tracked across every
single intercepted call other than `close` on it: `socket` with any domain and
any genuine result, `sendto` and `send` with any arguments, and `close` on any
other descriptor; so a call after which it is untracked is a `close` on it. -/
theorem tracking_persists (socks : Table) (id : Int) (htracked : is_tracked socks id = true) :
    (∀ (real_socket : Int → Int → Int → Int) (domain type protocol : Int),
      is_tracked (socket real_socket socks domain type protocol).socks id = true) ∧
    (∀ (real_sendto : Int → Buf → Nat → Int → Option Sockaddr → Nat → Int)
      (fd : Int) (buf : Buf) (len : Nat) (flags : Int)
      (dest_addr : Option Sockaddr) (addrlen : Nat),
      is_tracked (sendto real_sendto socks fd buf len flags dest_addr addrlen).socks id
        = true) ∧
    (∀ (real_sendto : Int → Buf → Nat → Int → Option Sockaddr → Nat → Int)
      (fd : Int) (buf : Buf) (len : Nat) (flags : Int),
      is_tracked (send real_sendto socks fd buf len flags).socks id = true) ∧
    (∀ (real_close : Int → Int) (j : Int), j ≠ id →
      is_tracked (close real_close socks j).socks id = true) ∧
    (∀ c : Call, is_tracked (c.exec socks).socks id = false → c.isCloseOf id = true) := by
  have hi : inBounds id := is_tracked_inBounds socks id htracked
  refine ⟨?_, ?_, ?_, ?_, ?_⟩
  · intro real_socket domain type protocol
    rw [socket_is_tracked _ _ _ _ _ id hi, htracked]
    simp
  · intro real_sendto fd buf len flags dest_addr addrlen
    rw [sendto_socks, htracked]
  · intro real_sendto fd buf len flags
    rw [send, sendto_socks, htracked]
  · intro real_close j hj
    rw [close_is_tracked _ _ _ id hi, if_neg hj, htracked]
  · intro c hc
    rw [exec_is_tracked _ _ _ hi, htracked] at hc
    by_cases h1 : c.isCreationOf id = true
    · simp [h1] at hc
    · by_cases h2 : c.isCloseOf id = true
      · exact h2
      · simp [h1, h2] at hc

/-- Descriptor 7 stays tracked across a netlink creation returning 7 again, a
suppressed send on it and a `close` on descriptor 3. -/
theorem tracking_persists_witness :
    is_tracked table7 7 = true ∧
    is_tracked (socket (stub_socket 7) table7 AF_NETLINK 3 0).socks 7 = true ∧
    is_tracked (sendto stub_sendto table7 7 msg0x16 32 0 none 0).socks 7 = true ∧
    is_tracked (close (stub_close 0) table7 3).socks 7 = true :=
  have h := tracking_persists table7 7 (by decide)
  ⟨by decide, h.1 (stub_socket 7) AF_NETLINK 3 0,
    h.2.1 stub_sendto 7 msg0x16 32 0 none 0,
    h.2.2.2.1 (stub_close 0) 3 (by decide)⟩

/-! ## Which sends are inspected -/

/-- Outcome of `sendto` on the suppressing path. -/
theorem sendto_block (real_sendto : Int → Buf → Nat → Int → Option Sockaddr → Nat → Int)
    (socks : Table) (fd : Int) (buf : Buf) (len : Nat) (flags : Int)
    (dest_addr : Option Sockaddr) (addrlen : Nat)
    (h : sizeof_nlmsghdr ≤ len ∧ is_tracked socks fd = true ∧ nlmsg_type buf = 0x16) :
    (sendto real_sendto socks fd buf len flags dest_addr addrlen).ret = -1 ∧
    genuineCalls (sendto real_sendto socks fd buf len flags dest_addr addrlen).trace = [] ∧
    diagnostics (sendto real_sendto socks fd buf len flags dest_addr addrlen).trace
      = [Event.printf msg_blocked] := by
  have hb : inBounds fd := is_tracked_inBounds socks fd h.2.1
  have hs : socks (slot fd hb) ≠ 0 := by
    simpa [is_tracked, hb] using h.2.1
  have hl : ¬ len < sizeof_nlmsghdr := Nat.not_lt.mpr h.1
  simp [sendto, hl, hb, hs, h.2.2, genuineCalls, diagnostics, Event.isGenuine,
    Event.isPrintf]

/-- The buffer reads of `sendto`: the two bytes of `nlmsg_type`, read when the
length reaches the header size and the descriptor is tracked, and nothing
otherwise. -/
theorem sendto_bufReads (real_sendto : Int → Buf → Nat → Int → Option Sockaddr → Nat → Int)
    (socks : Table) (fd : Int) (buf : Buf) (len : Nat) (flags : Int)
    (dest_addr : Option Sockaddr) (addrlen : Nat) :
    bufReads (sendto real_sendto socks fd buf len flags dest_addr addrlen).trace
      = if sizeof_nlmsghdr ≤ len ∧ is_tracked socks fd = true
        then [Event.buf_read offsetof_nlmsg_type sizeof_nlmsg_type] else [] := by
  by_cases hl : len < sizeof_nlmsghdr
  · have hl2 : ¬ sizeof_nlmsghdr ≤ len := Nat.not_le.mpr hl
    simp [sendto, hl, hl2, bufReads, Event.isBufRead]
  · have hl2 : sizeof_nlmsghdr ≤ len := Nat.le_of_not_lt hl
    by_cases hb : inBounds fd
    · by_cases hs : socks (slot fd hb) ≠ 0
      · by_cases ht : nlmsg_type buf = 0x16
        · simp [sendto, hl, hl2, hb, hs, ht, is_tracked, bufReads, Event.isBufRead]
        · simp [sendto, hl, hl2, hb, hs, ht, is_tracked, bufReads, Event.isBufRead]
      · simp [sendto, hl, hb, hs, is_tracked, bufReads, Event.isBufRead]
    · simp [sendto, hl, hb, is_tracked, bufReads, Event.isBufRead]

/-- A `sendto` that reads the buffer or makes no genuine call is on a tracked
descriptor. -/
theorem sendto_inspected_tracked
    (real_sendto : Int → Buf → Nat → Int → Option Sockaddr → Nat → Int)
    (socks : Table) (fd : Int) (buf : Buf) (len : Nat) (flags : Int)
    (dest_addr : Option Sockaddr) (addrlen : Nat)
    (h : bufReads (sendto real_sendto socks fd buf len flags dest_addr addrlen).trace ≠ [] ∨
      genuineCalls (sendto real_sendto socks fd buf len flags dest_addr addrlen).trace = []) :
    is_tracked socks fd = true := by
  rcases h with h | h
  · rw [sendto_bufReads] at h
    by_contra hn
    exact h (by simp [hn])
  · by_contra hn
    have hf := sendto_forward real_sendto socks fd buf len flags dest_addr addrlen
      (fun hc => hn hc.2.1)
    rw [hf.2.1] at h
    exact List.cons_ne_nil _ _ h

/-- Freshness of descriptors for a sequence extended by one call. -/
theorem freshIds_snoc (socks : Table) (calls : List Call) (c : Call) :
    freshIds socks (calls ++ [c])
      = (freshIds socks calls && c.freshOn (runCalls socks calls)) := by
  induction calls generalizing socks with
  | nil => simp [freshIds, runCalls]
  | cons d rest ih =>
    have hstep : freshIds socks (d :: (rest ++ [c]))
        = (d.freshOn socks && freshIds (d.exec socks).socks (rest ++ [c])) := rfl
    have hstep0 : freshIds socks (d :: rest)
        = (d.freshOn socks && freshIds (d.exec socks).socks rest) := rfl
    have hrun : runCalls socks (d :: rest) = runCalls (d.exec socks).socks rest := rfl
    rw [List.cons_append, hstep, hstep0, hrun, ih, Bool.and_assoc]

/-- The most recent `socket` call returning `i`, for a sequence extended by one
call. -/
theorem lastSocketIsNetlink_snoc (i : Int) (calls : List Call) (c : Call) :
    lastSocketIsNetlink i (calls ++ [c])
      = if c.isSocketReturning i = true then c.isCreationOf i
        else lastSocketIsNetlink i calls := by
  by_cases hc : c.isSocketReturning i = true
  · simp [lastSocketIsNetlink, List.reverse_append, List.find?_cons, hc]
  · simp [lastSocketIsNetlink, List.reverse_append, List.find?_cons, hc]

/-- A netlink creation returning `i` is a `socket` call returning `i`. -/
theorem isSocketReturning_of_isCreationOf (i : Int) (c : Call)
    (h : c.isCreationOf i = true) : c.isSocketReturning i = true := by
  cases c with
  | socket domain type protocol r =>
    simp only [Call.isCreationOf, decide_eq_true_eq] at h
    simp [Call.isSocketReturning, h.2]
  | sendto fd buf len flags dest_addr addrlen r => simp [Call.isCreationOf] at h
  | send fd buf len flags r => simp [Call.isCreationOf] at h
  | close fd r => simp [Call.isCreationOf] at h

/-- A `socket` call returning `i` that is fresh on a table is made while `i`
is untracked, and is not a `close`. -/
theorem freshOn_of_isSocketReturning (socks : Table) (i : Int) (c : Call)
    (hs : c.isSocketReturning i = true) (hf : c.freshOn socks = true) :
    is_tracked socks i = false ∧ c.isCloseOf i = false := by
  cases c with
  | socket domain type protocol r =>
    simp only [Call.isSocketReturning, decide_eq_true_eq] at hs
    subst hs
    simp only [Call.freshOn, Bool.not_eq_true_eq_eq_false] at hf
    simp [Call.isCloseOf]
    simpa using hf
  | sendto fd buf len flags dest_addr addrlen r => simp [Call.isSocketReturning] at hs
  | send fd buf len flags r => simp [Call.isSocketReturning] at hs
  | close fd r => simp [Call.isSocketReturning] at hs

/-- In a sequence that hands out only untracked descriptors, an in-range
descriptor that was created and not closed since was last returned by a
netlink creation. -/
theorem lastSocketIsNetlink_of_fresh (calls : List Call) (i : Int) (hi : inBounds i)
    (hfresh : freshIds init calls = true) (hcreated : createdNotClosed i calls = true) :
    lastSocketIsNetlink i calls = true := by
  induction calls using List.reverseRecOn with
  | nil => simp [createdNotClosed, afterLastCreation] at hcreated
  | append_singleton calls c ih =>
    rw [freshIds_snoc, Bool.and_eq_true] at hfresh
    rw [lastSocketIsNetlink_snoc]
    rw [createdNotClosed_snoc] at hcreated
    by_cases hs : c.isSocketReturning i = true
    · rw [if_pos hs]
      by_contra hcr
      have hfo := freshOn_of_isSocketReturning _ i c hs hfresh.2
      rw [runCalls_is_tracked calls i hi] at hfo
      rw [if_neg hcr, hfo.2, hfo.1] at hcreated
      simp at hcreated
    · rw [if_neg hs]
      have hcr : ¬ c.isCreationOf i = true :=
        fun h => hs (isSocketReturning_of_isCreationOf i c h)
      rw [if_neg hcr] at hcreated
      by_cases hcl : c.isCloseOf i = true
      · rw [if_pos hcl] at hcreated
        exact absurd hcreated (by decide)
      · rw [if_neg hcl] at hcreated
        exact ih hfresh.1 hcreated

/-- C15, as stated, fails: after a netlink creation returning 5 and an
internet-domain creation returning 5 again, the most recent `socket` call that
returned 5 is not a netlink creation, yet a send of type 0x16 on 5 has its
header read and is suppressed with -1. -/
theorem inspected_after_other_family_counterexample :
    lastSocketIsNetlink 5 reuseCalls = false ∧
    bufReads (sendto stub_sendto (runCalls init reuseCalls) 5 msg0x16 32 0 none 0).trace
      = [Event.buf_read 4 2] ∧
    genuineCalls (sendto stub_sendto (runCalls init reuseCalls) 5 msg0x16 32 0 none 0).trace
      = [] ∧
    (sendto stub_sendto (runCalls init reuseCalls) 5 msg0x16 32 0 none 0).ret = -1 := by
  decide

/-- C15, amended (only tracked descriptors are inspected): from the load-time
table, when a `sendto` or `send` call on `fd` reads the header or is
suppressed, the calls before it contain a netlink creation that returned `fd`
with no `close` on `fd` after the last such creation; and if no `socket` call
of the sequence returned a descriptor tracked at that moment, the most recent
`socket` call that returned `fd` was a netlink creation. -/
theorem inspected_only_if_created (calls : List Call) (c : Call) (fd : Int)
    (hsend : c.sendFd = some fd)
    (hinsp : bufReads (c.exec (runCalls init calls)).trace ≠ [] ∨
      genuineCalls (c.exec (runCalls init calls)).trace = []) :
    createdNotClosed fd calls = true ∧
    (freshIds init calls = true → lastSocketIsNetlink fd calls = true) := by
  have htr : is_tracked (runCalls init calls) fd = true := by
    cases c with
    | socket domain type protocol r => simp [Call.sendFd] at hsend
    | sendto fd0 buf len flags dest_addr addrlen r =>
      simp only [Call.sendFd, Option.some.injEq] at hsend
      subst hsend
      exact sendto_inspected_tracked _ _ _ _ _ _ _ _ hinsp
    | send fd0 buf len flags r =>
      simp only [Call.sendFd, Option.some.injEq] at hsend
      subst hsend
      exact sendto_inspected_tracked _ _ _ _ _ _ _ _ hinsp
    | close fd0 r => simp [Call.sendFd] at hsend
  have hi : inBounds fd := is_tracked_inBounds _ fd htr
  have hcr : createdNotClosed fd calls = true := by
    rw [← runCalls_is_tracked calls fd hi]
    exact htr
  exact ⟨hcr, fun hfresh => lastSocketIsNetlink_of_fresh calls fd hi hfresh hcr⟩

/-- After the sequence `demoCalls`, a send of type 0x16 on descriptor 7 is
suppressed; 7 was created by the netlink creation that opens the sequence. -/
theorem inspected_only_if_created_witness :
    genuineCalls ((Call.send 7 msg0x16 32 0 32).exec (runCalls init demoCalls)).trace = [] ∧
    freshIds init demoCalls = true ∧
    createdNotClosed 7 demoCalls = true ∧
    lastSocketIsNetlink 7 demoCalls = true :=
  have h := inspected_only_if_created demoCalls (Call.send 7 msg0x16 32 0 32) 7 rfl
    (Or.inr (by decide))
  ⟨by decide, by decide, h.1, h.2 (by decide)⟩

/-! ## What the decision of `sendto` depends on -/

/-- C16 (the decision reads the buffer through `nlmsg_type` only): for two
buffers sent with lengths of at least 16 that agree on bytes 4 and 5, with the
same table, descriptor, flags and destination, `sendto` suppresses the one
exactly when it suppresses the other, and prints the same diagnostics; no
other byte of the header or payload takes part. -/
theorem decision_depends_on_type_only
    (real_sendto : Int → Buf → Nat → Int → Option Sockaddr → Nat → Int)
    (socks : Table) (fd : Int) (flags : Int) (dest_addr : Option Sockaddr) (addrlen : Nat)
    (buf1 buf2 : Buf) (len1 len2 : Nat)
    (h1 : 16 ≤ len1) (h2 : 16 ≤ len2)
    (h4 : byteAt buf1 4 = byteAt buf2 4) (h5 : byteAt buf1 5 = byteAt buf2 5) :
    (genuineCalls (sendto real_sendto socks fd buf1 len1 flags dest_addr addrlen).trace = [] ↔
      genuineCalls (sendto real_sendto socks fd buf2 len2 flags dest_addr addrlen).trace = []) ∧
    diagnostics (sendto real_sendto socks fd buf1 len1 flags dest_addr addrlen).trace
      = diagnostics (sendto real_sendto socks fd buf2 len2 flags dest_addr addrlen).trace := by
  have ht : nlmsg_type buf1 = nlmsg_type buf2 := by
    simp only [nlmsg_type, offsetof_nlmsg_type]
    rw [h4, h5]
  have hl1 : sizeof_nlmsghdr ≤ len1 := by
    simp only [sizeof_nlmsghdr]; omega
  have hl2 : sizeof_nlmsghdr ≤ len2 := by
    simp only [sizeof_nlmsghdr]; omega
  have hiff : (sizeof_nlmsghdr ≤ len1 ∧ is_tracked socks fd = true ∧ nlmsg_type buf1 = 0x16) ↔
      (sizeof_nlmsghdr ≤ len2 ∧ is_tracked socks fd = true ∧ nlmsg_type buf2 = 0x16) := by
    rw [ht]
    constructor
    · exact fun h => ⟨hl2, h.2⟩
    · exact fun h => ⟨hl1, h.2⟩
  refine ⟨?_, ?_⟩
  · rw [sendto_blocks_iff, sendto_blocks_iff]
    exact hiff
  · by_cases hc : sizeof_nlmsghdr ≤ len1 ∧ is_tracked socks fd = true ∧ nlmsg_type buf1 = 0x16
    · rw [(sendto_block real_sendto socks fd buf1 len1 flags dest_addr addrlen hc).2.2,
        (sendto_block real_sendto socks fd buf2 len2 flags dest_addr addrlen
          (hiff.1 hc)).2.2]
    · rw [(sendto_forward real_sendto socks fd buf1 len1 flags dest_addr addrlen hc).2.2.2,
        (sendto_forward real_sendto socks fd buf2 len2 flags dest_addr addrlen
          (fun h => hc (hiff.2 h))).2.2.2]

/-- Two headers of type 0x16 on tracked descriptor 7: one with embedded
`nlmsg_len` 24 sent with length 16, one with embedded `nlmsg_len` 0 and another
payload sent with length 32. Both are suppressed. -/
theorem decision_depends_on_type_only_witness :
    genuineCalls (sendto stub_sendto table7 7 msg0x16 16 0 none 0).trace = [] ∧
    genuineCalls (sendto stub_sendto table7 7 msg0x16_len0 32 0 none 0).trace = [] ∧
    (genuineCalls (sendto stub_sendto table7 7 msg0x16 16 0 none 0).trace = [] ↔
      genuineCalls (sendto stub_sendto table7 7 msg0x16_len0 32 0 none 0).trace = []) ∧
    diagnostics (sendto stub_sendto table7 7 msg0x16 16 0 none 0).trace
      = diagnostics (sendto stub_sendto table7 7 msg0x16_len0 32 0 none 0).trace :=
  ⟨by decide, by decide,
    decision_depends_on_type_only stub_sendto table7 7 0 none 0 msg0x16 msg0x16_len0 16 32
      (by decide) (by decide) (by decide) (by decide)⟩

/-! ## Diagnostics of `sendto`, `send` and `close` -/

/-- The diagnostics of `close`: the "closed" line for a tracked descriptor,
nothing otherwise. -/
theorem close_diagnostics (real_close : Int → Int) (socks : Table) (id : Int) :
    diagnostics (close real_close socks id).trace
      = if is_tracked socks id = true then [Event.printf (msg_closed id)] else [] := by
  by_cases hb : inBounds id
  · by_cases hs : socks (slot id hb) ≠ 0
    · simp [close, hb, hs, is_tracked, diagnostics, Event.isPrintf]
    · simp [close, hb, hs, is_tracked, diagnostics, Event.isPrintf]
  · simp [close, hb, is_tracked, diagnostics, Event.isPrintf]

/-- The diagnostics of `sendto`: the "blocked" line exactly on the path that
returns -1 without a genuine call, nothing otherwise. -/
theorem sendto_diagnostics
    (real_sendto : Int → Buf → Nat → Int → Option Sockaddr → Nat → Int)
    (socks : Table) (fd : Int) (buf : Buf) (len : Nat) (flags : Int)
    (dest_addr : Option Sockaddr) (addrlen : Nat) :
    (diagnostics (sendto real_sendto socks fd buf len flags dest_addr addrlen).trace
        = [Event.printf msg_blocked] ↔
      ((sendto real_sendto socks fd buf len flags dest_addr addrlen).ret = -1 ∧
        genuineCalls (sendto real_sendto socks fd buf len flags dest_addr addrlen).trace
          = [])) ∧
    (diagnostics (sendto real_sendto socks fd buf len flags dest_addr addrlen).trace
        = [Event.printf msg_blocked] ∨
      diagnostics (sendto real_sendto socks fd buf len flags dest_addr addrlen).trace = []) := by
  by_cases hc : sizeof_nlmsghdr ≤ len ∧ is_tracked socks fd = true ∧ nlmsg_type buf = 0x16
  · have hb := sendto_block real_sendto socks fd buf len flags dest_addr addrlen hc
    exact ⟨⟨fun _ => ⟨hb.1, hb.2.1⟩, fun _ => hb.2.2⟩, Or.inl hb.2.2⟩
  · have hf := sendto_forward real_sendto socks fd buf len flags dest_addr addrlen hc
    refine ⟨⟨fun h => ?_, fun h => ?_⟩, Or.inr hf.2.2.2⟩
    · rw [hf.2.2.2] at h
      exact absurd h.symm (List.cons_ne_nil _ _)
    · rw [hf.2.1] at h
      exact absurd h.2 (List.cons_ne_nil _ _)

/-- C17 (diagnostics of `sendto`, `send` and `close`): `sendto` and `send`
print the "blocked" line exactly when they return -1 without a genuine call,
`close` prints the "closed" line exactly when the descriptor was tracked
before the call, and in every other case they print nothing. -/
theorem send_close_diagnostics
    (real_sendto : Int → Buf → Nat → Int → Option Sockaddr → Nat → Int)
    (real_close : Int → Int) (socks : Table) (fd : Int) (buf : Buf) (len : Nat)
    (flags : Int) (dest_addr : Option Sockaddr) (addrlen : Nat) (id : Int) :
    ((diagnostics (sendto real_sendto socks fd buf len flags dest_addr addrlen).trace
        = [Event.printf msg_blocked] ↔
      ((sendto real_sendto socks fd buf len flags dest_addr addrlen).ret = -1 ∧
        genuineCalls (sendto real_sendto socks fd buf len flags dest_addr addrlen).trace
          = [])) ∧
    (diagnostics (sendto real_sendto socks fd buf len flags dest_addr addrlen).trace
        = [Event.printf msg_blocked] ∨
      diagnostics (sendto real_sendto socks fd buf len flags dest_addr addrlen).trace = [])) ∧
    ((diagnostics (send real_sendto socks fd buf len flags).trace
        = [Event.printf msg_blocked] ↔
      ((send real_sendto socks fd buf len flags).ret = -1 ∧
        genuineCalls (send real_sendto socks fd buf len flags).trace = [])) ∧
    (diagnostics (send real_sendto socks fd buf len flags).trace
        = [Event.printf msg_blocked] ∨
      diagnostics (send real_sendto socks fd buf len flags).trace = [])) ∧
    (diagnostics (close real_close socks id).trace = [Event.printf (msg_closed id)] ↔
      is_tracked socks id = true) ∧
    (diagnostics (close real_close socks id).trace = [Event.printf (msg_closed id)] ∨
      diagnostics (close real_close socks id).trace = []) := by
  refine ⟨sendto_diagnostics real_sendto socks fd buf len flags dest_addr addrlen,
    sendto_diagnostics real_sendto socks fd buf len flags none 0, ?_, ?_⟩
  · rw [close_diagnostics]
    by_cases ht : is_tracked socks id = true
    · simp [ht]
    · simp [ht]
  · rw [close_diagnostics]
    by_cases ht : is_tracked socks id = true
    · simp [ht]
    · simp [ht]

/-! ## Frame of each call on the table -/

/-- C18 (frame): `sendto` and `send` return the table they were given;
`socket` leaves every entry other than the one indexed by the genuine result
as it was; `close` leaves every entry other than the one indexed by its
argument as it was. -/
theorem table_frame (real_socket : Int → Int → Int → Int)
    (real_sendto : Int → Buf → Nat → Int → Option Sockaddr → Nat → Int)
    (real_close : Int → Int) (socks : Table)
    (domain type protocol : Int) (fd : Int) (buf : Buf) (len : Nat) (flags : Int)
    (dest_addr : Option Sockaddr) (addrlen : Nat) (id : Int) :
    (sendto real_sendto socks fd buf len flags dest_addr addrlen).socks = socks ∧
    (send real_sendto socks fd buf len flags).socks = socks ∧
    (∀ j : Fin MAX_SOCK, (j.val : Int) ≠ real_socket domain type protocol →
      (socket real_socket socks domain type protocol).socks j = socks j) ∧
    (∀ j : Fin MAX_SOCK, (j.val : Int) ≠ id →
      (close real_close socks id).socks j = socks j) := by
  have hslot : ∀ (a : Int) (ha : inBounds a) (j : Fin MAX_SOCK),
      (j.val : Int) ≠ a → j ≠ slot a ha := by
    intro a ha j hj hEq
    apply hj
    have h0 := ha.1
    have hv : j.val = a.toNat := congrArg Fin.val hEq
    omega
  refine ⟨sendto_socks _ _ _ _ _ _ _ _, sendto_socks _ _ _ _ _ _ _ _, ?_, ?_⟩
  · intro j hj
    by_cases hd : domain ≠ AF_NETLINK
    · simp [socket, hd]
    · by_cases hb : inBounds (real_socket domain type protocol)
      · simp only [socket, hd, hb, if_false, dite_true]
        exact Function.update_noteq (hslot _ hb j hj) _ _
      · simp [socket, hd, hb]
  · intro j hj
    by_cases hb : inBounds id
    · by_cases hs : socks (slot id hb) ≠ 0
      · simp only [close, hb, dite_true]
        rw [if_pos hs]
        exact Function.update_noteq (hslot _ hb j hj) _ _
      · simp [close, hb, hs]
    · simp [close, hb]

/-- On the table that tracks 7: a netlink creation returning 9 and a `close`
on 7 leave entry 3 as it was. -/
theorem table_frame_witness :
    (socket (stub_socket 9) table7 AF_NETLINK 3 0).socks (slot 3 (by decide))
      = table7 (slot 3 (by decide)) ∧
    (close (stub_close 0) table7 7).socks (slot 3 (by decide)) = table7 (slot 3 (by decide)) :=
  have h := table_frame (stub_socket 9) stub_sendto (stub_close 0) table7 AF_NETLINK 3 0
    7 msg0x16 32 0 none 0 7
  ⟨h.2.2.1 (slot 3 (by decide)) (by decide), h.2.2.2 (slot 3 (by decide)) (by decide)⟩

/-! ## Width of the forwarded result -/

/-- C19 (width of the forwarded result): when `sendto` forwards through the
`int`-typed pointer to a genuine `sendto` returning `ssize_t`, the value it
returns is the genuine result reduced modulo 2^32 into `[-2^31, 2^31)`; it is
the genuine result exactly when that result lies in `[-2^31, 2^31)`. -/
theorem sendto_result_width
    (genuine_sendto : Int → Buf → Nat → Int → Option Sockaddr → Nat → Int)
    (socks : Table) (fd : Int) (buf : Buf) (len : Nat) (flags : Int)
    (dest_addr : Option Sockaddr) (addrlen : Nat)
    (hfwd : genuineCalls (sendto (through_int_pointer genuine_sendto) socks fd buf len
      flags dest_addr addrlen).trace ≠ []) :
    (sendto (through_int_pointer genuine_sendto) socks fd buf len flags dest_addr addrlen).ret
      = int_of_ssize (genuine_sendto fd buf len flags dest_addr addrlen) ∧
    -2147483648 ≤ (sendto (through_int_pointer genuine_sendto) socks fd buf len flags
      dest_addr addrlen).ret ∧
    (sendto (through_int_pointer genuine_sendto) socks fd buf len flags dest_addr addrlen).ret
      < 2147483648 ∧
    ((sendto (through_int_pointer genuine_sendto) socks fd buf len flags dest_addr
      addrlen).ret - genuine_sendto fd buf len flags dest_addr addrlen) % 4294967296 = 0 ∧
    ((sendto (through_int_pointer genuine_sendto) socks fd buf len flags dest_addr addrlen).ret
        = genuine_sendto fd buf len flags dest_addr addrlen ↔
      (-2147483648 ≤ genuine_sendto fd buf len flags dest_addr addrlen ∧
        genuine_sendto fd buf len flags dest_addr addrlen < 2147483648)) := by
  have hc : ¬ (sizeof_nlmsghdr ≤ len ∧ is_tracked socks fd = true ∧ nlmsg_type buf = 0x16) :=
    fun hc => hfwd ((sendto_blocks_iff _ socks fd buf len flags dest_addr addrlen).2 hc)
  have hf := sendto_forward (through_int_pointer genuine_sendto) socks fd buf len flags
    dest_addr addrlen hc
  have key : ∀ r : Int, -2147483648 ≤ int_of_ssize r ∧ int_of_ssize r < 2147483648 ∧
      (int_of_ssize r - r) % 4294967296 = 0 ∧
      (int_of_ssize r = r ↔ (-2147483648 ≤ r ∧ r < 2147483648)) := by
    intro r
    unfold int_of_ssize
    refine ⟨by omega, by omega, by omega, ?_⟩
    constructor
    · intro h
      omega
    · intro h
      omega
  rw [hf.1]
  exact ⟨rfl, key (genuine_sendto fd buf len flags dest_addr addrlen)⟩

/-- A genuine `sendto` reporting 2^32 - 1 bytes, forwarded on the untracked
descriptor 3, comes back as -1; one reporting 32 bytes comes back as 32. -/
theorem sendto_result_width_witness :
    (sendto (through_int_pointer (fun _ _ _ _ _ _ => 4294967295)) table7 3 msg0x01 32 0
      none 0).ret = -1 ∧
    (sendto (through_int_pointer stub_sendto) table7 3 msg0x01 32 0 none 0).ret = 32 :=
  ⟨(sendto_result_width (fun _ _ _ _ _ _ => 4294967295) table7 3 msg0x01 32 0 none 0
      (by decide)).1.trans (by decide),
    (sendto_result_width stub_sendto table7 3 msg0x01 32 0 none 0 (by decide)).1.trans
      (by decide)⟩

end Xpfix
